import Mathlib

/-!
Verification development for the seaview tile rasterization engine
(src/processor/tilers/rectlinear.py, class SlippyTileGenerator).

The embedding is shallow: numpy arrays become Lean lists, machine floats
become exact rationals, and the 2-D value array becomes a list of rows.
A float value is modelled by FVal, which distinguishes finite values,
NaN and the two infinities, because np.isnan is false on infinities and
that distinction is observable in the data-preparation code.
-/

namespace Seaview

/-- Model of an IEEE double as seen by the code: a finite rational, NaN,
or one of the two infinities. -/
inductive FVal where
  | fin (q : ℚ)
  | nan
  | pinf
  | ninf
deriving DecidableEq

/-- Model of np.isnan: true exactly on NaN (false on the infinities). -/
def FVal.isnan : FVal → Bool
  | .nan => true
  | _ => false

/-- Spec-side notion of a finite sample (not NaN and not infinite). -/
def FVal.isFinite : FVal → Bool
  | .fin _ => true
  | _ => false

/-- One sample of the flattened point cloud: latitude, longitude and the
data value at that position (value is non-NaN after preparation). -/
structure Pt where
  lat : ℚ
  lon : ℚ
  val : FVal
deriving DecidableEq

/-- Detection of a descending 1-D coordinate axis, as the code writes it:
axis[0] > axis[-1] (lines 175 and 176 of rectlinear.py). On the empty
list the comparison is vacuously false (the code would fault there; all
theorems about axes assume nonempty inputs). -/
def isDesc (xs : List ℚ) : Bool :=
  match xs.head?, xs.getLast? with
  | some a, some b => decide (b < a)
  | _, _ => false

/-- Row flip along axis 1, np.flip(m, axis=1): every row reversed. -/
def flipAxis1 (m : List (List FVal)) : List (List FVal) :=
  m.map List.reverse

/-- The lat side of np.meshgrid(lons, lats): row i is the constant row
holding lats[i], with one entry per longitude. -/
def meshLat (lons lats : List ℚ) : List (List ℚ) :=
  lats.map (fun la => List.replicate lons.length la)

/-- The lon side of np.meshgrid(lons, lats): every row is the lons axis,
one row per latitude. -/
def meshLon (lons lats : List ℚ) : List (List ℚ) :=
  lats.map (fun _ => lons)

/-- Flattening plus validity filtering (lines 198 and 204 to 207 of
rectlinear.py): valid_mask = not isnan(data); the three flattened arrays
lat_grid[valid_mask], lon_grid[valid_mask], data_work[valid_mask] are
modelled as one list of Pt, produced in C (row-major) order, which is
the order numpy boolean indexing uses. -/
def cloudOfGrids (latG lonG : List (List ℚ)) (data : List (List FVal)) : List Pt :=
  (latG.zip (lonG.zip data)).flatMap fun r =>
    (r.1.zip (r.2.1.zip r.2.2)).filterMap fun e =>
      if e.2.2.isnan then none else some ⟨e.1, e.2.1, e.2.2⟩

/-- The coordinate axes of a scene: either two 1-D axes or two 2-D
meshes, mirroring the ndim test on line 173 of rectlinear.py. -/
inductive Axes where
  | oneD (lats lons : List ℚ)
  | twoD (latG lonG : List (List ℚ))

/-- Data preparation portion of SlippyTileGenerator.generate_tiles
(lines 172 to 207 of rectlinear.py): for 1-D axes, detect a descending
axis per axis, reverse it and flip the value array along the matching
axis, build the meshgrid, then flatten keeping exactly the non-NaN
samples. For 2-D axes the grids are used unchanged. -/
def prepare (ax : Axes) (data : List (List FVal)) : List Pt :=
  match ax with
  | .oneD lats lons =>
    let latD := isDesc lats
    let lonD := isDesc lons
    let lats1 := if latD then lats.reverse else lats
    let lons1 := if lonD then lons.reverse else lons
    let d1 := if latD then data.reverse else data
    let d2 := if lonD then flipAxis1 d1 else d1
    cloudOfGrids (meshLat lons1 lats1) (meshLon lons1 lats1) d2
  | .twoD latG lonG => cloudOfGrids latG lonG data

/-- Shape discipline numpy enforces for the code to run: the value array
must be congruent with the coordinate grids (data.shape equals
(len(lats), len(lons)) in the 1-D case, and the three 2-D arrays share
their shape in the 2-D case). -/
def shapeOk : Axes → List (List FVal) → Bool
  | .oneD lats lons, data =>
    data.length == lats.length && data.all (fun r => r.length == lons.length)
  | .twoD latG lonG, data =>
    latG.length == data.length && lonG.length == data.length &&
    ((latG.zip data).all fun p => p.1.length == p.2.length) &&
    ((lonG.zip data).all fun p => p.1.length == p.2.length)

/-- Number of non-NaN samples of the value array (what valid_mask keeps). -/
def countNonNaN (data : List (List FVal)) : ℕ :=
  (data.map fun r => r.countP fun v => !v.isnan).sum

/-- Number of finite samples of the value array. Spec-side definition,
following the words of the spec (a PointCloud contains only finite,
non-NaN samples and its length is the count of finite input samples);
to be compared with what the code computes. -/
def countFinite (data : List (List FVal)) : ℕ :=
  (data.map fun r => r.countP fun v => v.isFinite).sum

/-- One RGBA pixel with 8-bit channels. -/
structure RGBA where
  r : ℕ
  g : ℕ
  b : ℕ
  a : ℕ
deriving DecidableEq

/-- A raster image as rows of pixels. -/
abbrev Image := List (List RGBA)

/-- PIL Image.new with a constant fill color: h rows of w pixels. -/
def imageNew (w h : ℕ) (c : RGBA) : Image :=
  List.replicate h (List.replicate w c)

/-- The fully transparent 256 x 256 fallback tile the code produces with
Image.new RGBA (256, 256) filled with (0, 0, 0, 0). -/
def transparentTile : Image :=
  imageNew 256 256 ⟨0, 0, 0, 0⟩

/-- An image is a fully transparent 256 x 256 RGBA image: 256 rows of
256 pixels, every alpha channel zero. -/
def Is256Transparent (img : Image) : Prop :=
  img.length = 256 ∧ ∀ row ∈ img, row.length = 256 ∧ ∀ p ∈ row, p.a = 0

/-- Geographic bounds of one tile in degrees, as returned by
mercantile.bounds and unpacked on lines 290 to 294 of rectlinear.py. -/
structure Bounds where
  west : ℚ
  south : ℚ
  east : ℚ
  north : ℚ

/-- The buffered selection test of lines 296 to 307 of rectlinear.py:
the buffer is half the tile height and width, and a point is kept when
its latitude and longitude both fall inside bounds extended by the
buffer (all four comparisons inclusive). -/
def selectMask (b : Bounds) (p : Pt) : Bool :=
  let bufferLat := (b.north - b.south) * (1 / 2)
  let bufferLon := (b.east - b.west) * (1 / 2)
  decide (b.south - bufferLat ≤ p.lat) && decide (p.lat ≤ b.north + bufferLat) &&
  decide (b.west - bufferLon ≤ p.lon) && decide (p.lon ≤ b.east + bufferLon)

/-- Subset of the point cloud inside the buffered tile window
(tile_lons, tile_lats, tile_data of lines 319 to 321, kept as one list
of samples). -/
def selectPts (b : Bounds) (pc : List Pt) : List Pt :=
  pc.filter (selectMask b)

/-- A planar triangulation as matplotlib stores it: the x and y point
coordinates (triang.x, triang.y) and the triangles as index triples
into those arrays. Produced by the Delaunay primitive, which the
embedding treats as an oracle. -/
structure Triang where
  xs : List ℚ
  ys : List ℚ
  triangles : List (ℕ × ℕ × ℕ)

/-- Two dimensional cross product of two edge vectors. Spec-side
definition following the words of the spec (planar area is half the
absolute cross product of two edge vectors). -/
def cross (ux uy vx vy : ℚ) : ℚ :=
  ux * vy - uy * vx

/-- Area of one triangle exactly as lines 345 to 353 of rectlinear.py
compute it: gather the three vertex coordinates, form the two edge
vectors from vertex 0, and take half the absolute value of their cross
product. Out-of-range indices read a default 0, which never happens for
a well-formed triangulation. -/
def triArea (t : Triang) (tr : ℕ × ℕ × ℕ) : ℚ :=
  let x0 := t.xs.getD tr.1 0
  let x1 := t.xs.getD tr.2.1 0
  let x2 := t.xs.getD tr.2.2 0
  let y0 := t.ys.getD tr.1 0
  let y1 := t.ys.getD tr.2.1 0
  let y2 := t.ys.getD tr.2.2 0
  (1 / 2) * |(x1 - x0) * (y2 - y0) - (y1 - y0) * (x2 - x0)|

/-- The area of every triangle of the triangulation, in order. -/
def triAreas (t : Triang) : List ℚ :=
  t.triangles.map (triArea t)

/-- Model of np.median on a 1-D array: sort, then take the middle
element (odd length) or the mean of the two middle elements (even
length). Only meaningful on nonempty input, as in the code where at
least one triangle exists. -/
def npMedian (xs : List ℚ) : ℚ :=
  let s := List.insertionSort (· ≤ ·) xs
  let n := s.length
  if n % 2 = 1 then s.getD (n / 2) 0
  else (s.getD (n / 2 - 1) 0 + s.getD (n / 2) 0) / 2

/-- The triangle mask of lines 355 to 357 of rectlinear.py: mask exactly
the triangles whose area is strictly greater than 3 times the median
area. -/
def areaMask (t : Triang) : List Bool :=
  let areas := triAreas t
  let m := npMedian areas
  areas.map fun a => decide (3 * m < a)

/-- A triangulation with its mask attached (triang.set_mask(mask),
line 358). -/
structure MaskedTriang where
  tri : Triang
  mask : List Bool

/-- Lines 343 to 358 of rectlinear.py as one step: compute the areas,
the median, the mask, and attach the mask to the triangulation. -/
def applyAreaMask (t : Triang) : MaskedTriang :=
  ⟨t, areaMask t⟩

/-- Color parameters of a render job: colormap name, number of contour
levels, and the value range. -/
structure ColorSpec where
  cmap : String
  levels : ℕ
  vmin : ℚ
  vmax : ℚ

/-- Model of np.linspace(a, b, n): n evenly spaced samples from a to b
inclusive (degenerate cases n = 0 and n = 1 as numpy computes them). -/
def npLinspace (a b : ℚ) (n : ℕ) : List ℚ :=
  if n = 0 then []
  else if n = 1 then [a]
  else (List.range n).map fun i => a + (b - a) * i / (n - 1)

/-- The library primitives the renderer calls, as an oracle over an
arbitrary contour-artifact type CS: the Delaunay triangulation
(tri.Triangulation, which raises on degenerate input, modelled by
Except), the filled-contour computation (ax.tricontourf, also fallible,
modelled by Except, receiving the masked triangulation, the selected
data values and the contour levels), and the rasterization and resize
to the final image (plt.savefig, Image.open, Image.resize, lines 371 to
384, outside the try block and not data-fallible). The claim theorems
quantify over every oracle, so they hold whatever the libraries do. -/
structure Oracle (CS : Type) where
  triangulate : List ℚ → List ℚ → Except Unit Triang
  tricontourf : MaskedTriang → List FVal → List ℚ → ColorSpec → Except Unit CS
  savefigResize : CS → Image

/-- The try block of lines 340 to 362 of rectlinear.py: triangulate the
selected longitudes and latitudes, mask large triangles, compute the
contour levels, and run the filled-contour step; any failure inside is
an error result (the except branch of line 363). -/
def tryBlock {CS : Type} (o : Oracle CS) (sel : List Pt) (cs : ColorSpec) :
    Except Unit CS :=
  match o.triangulate (sel.map Pt.lon) (sel.map Pt.lat) with
  | .error e => .error e
  | .ok t =>
    let mt := applyAreaMask t
    let contourLevels := npLinspace cs.vmin cs.vmax cs.levels
    o.tricontourf mt (sel.map Pt.val) contourLevels cs

/-- SlippyTileGenerator._generate_single_tile, lines 289 to 386, with
the tile bounds passed in (the code obtains them from
mercantile.bounds): select the buffered window; with an empty window or
fewer than 3 points produce the transparent tile; otherwise run the try
block, falling back to the transparent tile on any failure inside it,
and on success rasterize and resize the contour plot. The function is
total: every branch yields exactly one image. -/
def renderSingleTile {CS : Type} (o : Oracle CS) (b : Bounds) (pc : List Pt)
    (cs : ColorSpec) : Image :=
  let sel := selectPts b pc
  if sel.isEmpty then transparentTile
  else if sel.length < 3 then transparentTile
  else
    match tryBlock o sel cs with
    | .error _ => transparentTile
    | .ok art => o.savefigResize art

/-- Filesystem events generate_tiles performs, in program order:
creation of the output root, of a zoom directory, of an x subdirectory,
and the write of one tile image at output_dir/zoom/x/y.png (the path is
determined by the triple zoom, x, y). -/
inductive FsOp where
  | mkdirRoot
  | mkdirZoom (z : ℕ)
  | mkdirX (z x : ℕ)
  | writeTile (z x y : ℕ) (img : Image)

/-- The distinct x values of a tile list (set(tile.x for tile in tiles),
line 226; the iteration order of a Python set is unspecified, modelled
by dedup order). -/
def xDirs (ts : List (ℕ × ℕ)) : List ℕ :=
  (ts.map Prod.fst).dedup

/-- Write of one tile by a worker: _generate_single_tile saves exactly
one image at the path of its tile on every control path. -/
def runTileJob {CS : Type} (o : Oracle CS) (boundsOf : ℕ → ℕ → ℕ → Bounds)
    (pc : List Pt) (cs : ColorSpec) (z x y : ℕ) : FsOp :=
  .writeTile z x y (renderSingleTile o (boundsOf z x y) pc cs)

/-- The filesystem trace of one zoom level of generate_tiles (lines 219
to 253): make the zoom directory, make one directory per distinct x,
then submit one render job per enumerated tile; each job performs its
single write. Events are listed in submission order, directory creation
strictly before any job. -/
def zoomTrace {CS : Type} (o : Oracle CS) (boundsOf : ℕ → ℕ → ℕ → Bounds)
    (pc : List Pt) (cs : ColorSpec) (z : ℕ) (ts : List (ℕ × ℕ)) : List FsOp :=
  FsOp.mkdirZoom z :: ((xDirs ts).map (FsOp.mkdirX z) ++
    ts.map fun p => runTileJob o boundsOf pc cs z p.1 p.2)

/-- The filesystem trace of generate_tiles (lines 169 to 255): create
the output root, then process each requested zoom level sequentially.
The tile enumeration per zoom (mercantile.tiles via
get_tiles_for_bounds) is a parameter. -/
def generateTilesTrace {CS : Type} (o : Oracle CS)
    (boundsOf : ℕ → ℕ → ℕ → Bounds) (tilesOf : ℕ → List (ℕ × ℕ))
    (pc : List Pt) (cs : ColorSpec) (zooms : List ℕ) : List FsOp :=
  FsOp.mkdirRoot :: zooms.flatMap fun z => zoomTrace o boundsOf pc cs z (tilesOf z)

/-- Test whether an event is the write of the tile file at path z/x/y. -/
def isWriteAt (z x y : ℕ) : FsOp → Bool
  | .writeTile z2 x2 y2 _ => z == z2 && x == x2 && y == y2
  | _ => false

/-- Number of writes a trace performs at the path z/x/y.png. -/
def writeCount (tr : List FsOp) (z x y : ℕ) : ℕ :=
  tr.countP (isWriteAt z x y)

/-- The result-collection loop of generate_tiles (lines 243 to 253):
one entry per completed future, in completion order, each carrying its
tile coordinates and either success or the exception it raised. The
loop counts every completion and, on an exception, catches it and logs
it with the coordinates of its tile, then keeps going. Returns the
number of processed futures and the error log. -/
def collectResults (z : ℕ) :
    List ((ℕ × ℕ) × Except String Unit) → ℕ × List (ℕ × ℕ × ℕ × String)
  | [] => (0, [])
  | ((x, y), r) :: rest =>
    let acc := collectResults z rest
    match r with
    | .error e => (acc.1 + 1, (z, x, y, e) :: acc.2)
    | .ok _ => (acc.1 + 1, acc.2)

/-- Modelled from the spec: the mercantile library (mercantile.tiles and
mercantile.bounds) is an external dependency whose source is not under
src, so TileGridMapper is modelled from section 4.1 of the spec. The
model works in normalized Web-Mercator plane coordinates, the image of
longitude under the linear map and of latitude under the Mercator y
bijection, both scaled to the unit square with y growing southward; in
these coordinates a tile (x, y) at zoom z occupies exactly the square
with corners (x / 2 ^ z, y / 2 ^ z) and ((x + 1) / 2 ^ z,
(y + 1) / 2 ^ z). This definition is bounds_for_tile: the exact
algebraic tile bounds (xmin, ymin, xmax, ymax). -/
def boundsForTile (x y z : ℕ) : ℚ × ℚ × ℚ × ℚ :=
  ((x : ℚ) / 2 ^ z, (y : ℚ) / 2 ^ z, ((x : ℚ) + 1) / 2 ^ z, ((y : ℚ) + 1) / 2 ^ z)

/-- Modelled from the spec: tiles_for_bbox of section 4.1, enumerating
every tile of the canonical 2 ^ z grid whose bounds intersect the given
box (closed rectangles, in the normalized coordinates of
boundsForTile). -/
def tilesForBbox (x0 y0 x1 y1 : ℚ) (z : ℕ) : List (ℕ × ℕ) :=
  ((List.range (2 ^ z)).flatMap fun i =>
    (List.range (2 ^ z)).map fun j => (i, j)).filter fun p =>
      decide ((p.1 : ℚ) / 2 ^ z ≤ x1) && decide (x0 ≤ ((p.1 : ℚ) + 1) / 2 ^ z) &&
      decide ((p.2 : ℚ) / 2 ^ z ≤ y1) && decide (y0 ≤ ((p.2 : ℚ) + 1) / 2 ^ z)

/-- The arrays owned by the caller of generate_tiles: scene_data and the
two coordinate arrays. For the mutation claim the embedding threads
this store through every numpy operation the preparation code performs,
so that an operation writing into a caller array would have to return
an updated store. -/
structure Store where
  sceneData : List (List FVal)
  axes : Axes

/-- numpy basic slicing xs[::-1] (lines 179 and 180): returns a
reversed read-only view and writes nothing, so the store is returned
unchanged. -/
def npReverseSlice (st : Store) (xs : List ℚ) : Store × List ℚ :=
  (st, xs.reverse)

/-- ndarray.copy() on a 1-D axis (lines 179 and 180): returns a fresh
array with the same contents, writes nothing. -/
def npCopyAxis (st : Store) (xs : List ℚ) : Store × List ℚ :=
  (st, xs)

/-- ndarray.copy() on the 2-D value array (lines 181 and 195): returns
a fresh array with the same contents, writes nothing. -/
def npCopyGrid (st : Store) (m : List (List FVal)) : Store × List (List FVal) :=
  (st, m)

/-- np.flip(m, axis=0) (line 185): returns a reversed view, writes
nothing. -/
def npFlipAxis0 (st : Store) (m : List (List FVal)) : Store × List (List FVal) :=
  (st, m.reverse)

/-- np.flip(m, axis=1) (line 187): returns a view with every row
reversed, writes nothing. -/
def npFlipAxis1 (st : Store) (m : List (List FVal)) : Store × List (List FVal) :=
  (st, flipAxis1 m)

/-- np.meshgrid(lons, lats) (line 190): returns two fresh 2-D grids,
writes nothing. -/
def npMeshgrid (st : Store) (lons lats : List ℚ) :
    Store × (List (List ℚ) × List (List ℚ)) :=
  (st, (meshLon lons lats, meshLat lons lats))

/-- Boolean-mask fancy indexing of the three grids by valid_mask
(lines 198 and 204 to 207): returns fresh flattened copies, writes
nothing. -/
def npBoolMaskFilter (st : Store) (latG lonG : List (List ℚ))
    (d : List (List FVal)) : Store × List Pt :=
  (st, cloudOfGrids latG lonG d)

/-- The data-preparation prefix of generate_tiles (lines 172 to 207)
with the caller store threaded through every numpy operation, following
the source line by line: axis-direction detection, reversal or copy of
each 1-D axis, copy of the value array, the two conditional flips, the
meshgrid, and the valid-mask flattening; in the 2-D branch the grids
are used as-is and only the value array is copied. Returns the final
store and the flattened point cloud. -/
def generateTilesPrep (st : Store) : Store × List Pt :=
  match st.axes with
  | .oneD lats lons =>
    let latD := isDesc lats
    let lonD := isDesc lons
    let r1 := if latD then npReverseSlice st lats else npCopyAxis st lats
    let r2 := if lonD then npReverseSlice r1.1 lons else npCopyAxis r1.1 lons
    let r3 := npCopyGrid r2.1 st.sceneData
    let r4 := if latD then npFlipAxis0 r3.1 r3.2 else (r3.1, r3.2)
    let r5 := if lonD then npFlipAxis1 r4.1 r4.2 else (r4.1, r4.2)
    let r6 := npMeshgrid r5.1 r2.2 r1.2
    let r7 := npBoolMaskFilter r6.1 r6.2.2 r6.2.1 r5.2
    (r7.1, r7.2)
  | .twoD latG lonG =>
    let r3 := npCopyGrid st st.sceneData
    let r7 := npBoolMaskFilter r3.1 latG lonG r3.2
    (r7.1, r7.2)

/-- An oracle whose library primitives always succeed, for concrete
evaluation. -/
def noopOracle : Oracle Unit :=
  ⟨fun xs ys => .ok ⟨xs, ys, []⟩, fun _ _ _ _ => .ok (), fun _ => transparentTile⟩

/-- An oracle whose Delaunay primitive always raises, modelling a
degenerate-geometry failure, for concrete evaluation. -/
def failOracle : Oracle Unit :=
  ⟨fun _ _ => .error (), fun _ _ _ _ => .error (), fun _ => transparentTile⟩

/-- A concrete tile bounds value for concrete evaluation. -/
def demoBounds : Bounds := ⟨0, 0, 1, 1⟩

/-- A constant bounds assignment for concrete evaluation. -/
def constBoundsOf : ℕ → ℕ → ℕ → Bounds := fun _ _ _ => demoBounds

/-- A concrete color specification for concrete evaluation. -/
def demoCS : ColorSpec := ⟨"RdBu", 20, 0, 1⟩

/-- A concrete one-tile enumeration for concrete evaluation. -/
def demoTilesOf : ℕ → List (ℕ × ℕ) := fun _ => [(0, 0)]

/-- Three points inside demoBounds, for concrete evaluation. -/
def demoCloud : List Pt :=
  [⟨1 / 2, 1 / 2, .fin 1⟩, ⟨1 / 4, 1 / 4, .fin 2⟩, ⟨3 / 4, 3 / 4, .fin 3⟩]

/-- One point far outside demoBounds, for concrete evaluation. -/
def farCloud : List Pt := [⟨5, 5, .fin 1⟩]

/-- A concrete triangulation with two unit-ish triangles and one large
one, for concrete evaluation. -/
def demoTriang : Triang :=
  ⟨[0, 1, 0, 100], [0, 0, 1, 100], [(0, 1, 2), (0, 1, 2), (0, 1, 3)]⟩

/-- A concrete completion list with one failing job, for concrete
evaluation. -/
def demoResults : List ((ℕ × ℕ) × Except String Unit) :=
  [((0, 0), .ok ()), ((1, 2), .error "boom"), ((3, 4), .ok ())]

/-! Helper lemmas. -/

lemma transparentTile_is256 : Is256Transparent transparentTile := by
  constructor
  · simp only [transparentTile, imageNew, List.length_replicate]
  · intro row hrow
    have hr := List.eq_of_mem_replicate hrow
    subst hr
    constructor
    · simp only [List.length_replicate]
    · intro p hp
      have := List.eq_of_mem_replicate hp
      subst this
      rfl

lemma isDesc_reverse_false {xs : List ℚ} (h : isDesc xs = true) :
    isDesc xs.reverse = false := by
  unfold isDesc at h ⊢
  rw [List.head?_reverse, List.getLast?_reverse]
  cases hh : xs.head? with
  | none =>
    rw [hh] at h
    exact Bool.noConfusion h
  | some a =>
    cases hl : xs.getLast? with
    | none =>
      rw [hh, hl] at h
      try exact Bool.noConfusion h
    | some b =>
      rw [hh, hl] at h
      exact decide_eq_false (not_lt.mpr (le_of_lt (of_decide_eq_true h)))

lemma renderSingleTile_of_few {CS : Type} (o : Oracle CS) (b : Bounds)
    (pc : List Pt) (cs : ColorSpec) (h : (selectPts b pc).length < 3) :
    renderSingleTile o b pc cs = transparentTile := by
  unfold renderSingleTile
  by_cases he : (selectPts b pc).isEmpty
  · simp [he]
  · simp [he, h]

lemma renderSingleTile_of_tryBlock_error {CS : Type} (o : Oracle CS) (b : Bounds)
    (pc : List Pt) (cs : ColorSpec)
    (h : tryBlock o (selectPts b pc) cs = .error ()) :
    renderSingleTile o b pc cs = transparentTile := by
  unfold renderSingleTile
  by_cases he : (selectPts b pc).isEmpty
  · simp [he]
  · by_cases hl : (selectPts b pc).length < 3
    · simp [he, hl]
    · simp [he, hl, h]

/-! Claim C5: a tile whose buffered window holds fewer than 3 points is
written as the fully transparent tile. -/

/-- C5: for every tile whose buffered selection window contains 0, 1 or
2 points, the render job writes the fully transparent 256 x 256 RGBA
image (every alpha channel 0) at the path of its tile, and the render
function returns normally (it is total in the embedding, every branch
producing exactly one image). -/
theorem few_points_transparent_tile {CS : Type} (o : Oracle CS)
    (boundsOf : ℕ → ℕ → ℕ → Bounds) (pc : List Pt) (cs : ColorSpec) (z x y : ℕ)
    (h : (selectPts (boundsOf z x y) pc).length < 3) :
    runTileJob o boundsOf pc cs z x y = FsOp.writeTile z x y transparentTile ∧
    Is256Transparent transparentTile := by
  refine ⟨?_, transparentTile_is256⟩
  unfold runTileJob
  rw [renderSingleTile_of_few o (boundsOf z x y) pc cs h]

/-- C5 witness: with one point far outside the demo tile the buffered
window is empty and the transparent tile is written. -/
theorem few_points_transparent_tile_witness :
    (selectPts (constBoundsOf 1 0 0) farCloud).length < 3 ∧
    (runTileJob noopOracle constBoundsOf farCloud demoCS 1 0 0 =
      FsOp.writeTile 1 0 0 transparentTile ∧
    Is256Transparent transparentTile) :=
  ⟨by norm_num [selectPts, selectMask, farCloud, constBoundsOf, demoBounds],
    few_points_transparent_tile noopOracle constBoundsOf farCloud demoCS 1 0 0
      (by norm_num [selectPts, selectMask, farCloud, constBoundsOf, demoBounds])⟩

/-! Claim C1: any failure inside the triangulation and contouring block
is recovered by writing the transparent fallback tile. -/

/-- C1: whenever the try block of the render function (triangulation,
area masking, filled contouring) fails, the partial figure is discarded
and the render job writes the fully transparent 256 x 256 fallback
image at the path of its tile; the failure does not propagate out of
the render function, which is total and yields exactly one image on
every branch. -/
theorem render_failure_writes_transparent_fallback {CS : Type} (o : Oracle CS)
    (boundsOf : ℕ → ℕ → ℕ → Bounds) (pc : List Pt) (cs : ColorSpec) (z x y : ℕ)
    (h : tryBlock o (selectPts (boundsOf z x y) pc) cs = .error ()) :
    runTileJob o boundsOf pc cs z x y = FsOp.writeTile z x y transparentTile ∧
    Is256Transparent transparentTile := by
  refine ⟨?_, transparentTile_is256⟩
  unfold runTileJob
  rw [renderSingleTile_of_tryBlock_error o (boundsOf z x y) pc cs h]

/-- C1 witness: with a Delaunay primitive that raises on three in-window
points, the transparent fallback is written. -/
theorem render_failure_writes_transparent_fallback_witness :
    tryBlock failOracle (selectPts (constBoundsOf 1 0 0) demoCloud) demoCS =
      .error () ∧
    (runTileJob failOracle constBoundsOf demoCloud demoCS 1 0 0 =
      FsOp.writeTile 1 0 0 transparentTile ∧
    Is256Transparent transparentTile) :=
  ⟨rfl,
    render_failure_writes_transparent_fallback failOracle constBoundsOf demoCloud
      demoCS 1 0 0 rfl⟩

/-! Claim C6: descending-axis normalization. -/

/-- C6: with 1-D coordinate axes, descent is detected per axis by
comparing the first and last element; a grid whose latitude axis is
descending yields exactly the same point cloud (same point-value
associations, in the same order) as the grid with that axis reversed to
ascending and the value array flipped along the latitude axis. -/
theorem descending_axis_normalization (lats lons : List ℚ)
    (data : List (List FVal)) (h : isDesc lats = true) :
    prepare (Axes.oneD lats lons) data =
      prepare (Axes.oneD lats.reverse lons) data.reverse := by
  simp [prepare, h, isDesc_reverse_false h]

/-- C6 witness: the latitude axis 50, 40, 30 with a 3 x 2 value array
gives the same point cloud as the axis 30, 40, 50 with the rows
flipped. -/
theorem descending_axis_normalization_witness :
    isDesc [50, 40, 30] = true ∧
    prepare (Axes.oneD [50, 40, 30] [0, 10])
        [[.fin 1, .fin 2], [.fin 3, .fin 4], [.fin 5, .nan]] =
      prepare (Axes.oneD ([50, 40, 30] : List ℚ).reverse [0, 10])
        ([[.fin 1, .fin 2], [.fin 3, .fin 4], [.fin 5, .nan]] :
          List (List FVal)).reverse :=
  ⟨by decide,
    descending_axis_normalization [50, 40, 30] [0, 10]
      [[.fin 1, .fin 2], [.fin 3, .fin 4], [.fin 5, .nan]] (by decide)⟩

/-! Claim C4: the tile-bounds round trip. -/

/-- C4: for every valid tile coordinate (x, y at zoom z with both below
2 ^ z), enumerating the tiles that intersect the bounds of that tile at
the same zoom yields a list containing (x, y). -/
theorem tile_roundtrip (x y z : ℕ) (hx : x < 2 ^ z) (hy : y < 2 ^ z) :
    (x, y) ∈ tilesForBbox (boundsForTile x y z).1 (boundsForTile x y z).2.1
      (boundsForTile x y z).2.2.1 (boundsForTile x y z).2.2.2 z := by
  unfold tilesForBbox boundsForTile
  rw [List.mem_filter]
  have h2 : (0 : ℚ) < 2 ^ z := by positivity
  constructor
  · rw [List.mem_flatMap]
    exact ⟨x, List.mem_range.mpr hx, List.mem_map.mpr ⟨y, List.mem_range.mpr hy, rfl⟩⟩
  · simp only [Bool.and_eq_true, decide_eq_true_eq]
    refine ⟨⟨⟨?_, ?_⟩, ?_⟩, ?_⟩ <;>
      exact (div_le_div_iff_of_pos_right h2).mpr (by linarith)

/-- C4 witness: the round trip at zoom 2 for tile (1, 2). -/
theorem tile_roundtrip_witness :
    1 < 2 ^ 2 ∧ 2 < 2 ^ 2 ∧
    (1, 2) ∈ tilesForBbox (boundsForTile 1 2 2).1 (boundsForTile 1 2 2).2.1
      (boundsForTile 1 2 2).2.2.1 (boundsForTile 1 2 2).2.2.2 2 :=
  ⟨by decide, by decide, tile_roundtrip 1 2 2 (by decide) (by decide)⟩

/-! Claim C3: what data preparation drops. The code keeps every
non-NaN sample, so an infinite sample survives into the point cloud,
against the claim that only finite samples survive. -/

/-- C3 counterexample: a 1 x 1 grid holding positive infinity. The
code keeps the sample (np.isnan is false on infinity), so the point
cloud holds a non-finite value and its length is 1 while the count of
finite input samples is 0. -/
theorem prepare_keeps_infinite_sample :
    prepare (Axes.oneD [0] [0]) [[FVal.pinf]] = [⟨0, 0, FVal.pinf⟩] ∧
    FVal.isFinite FVal.pinf = false ∧
    countFinite [[FVal.pinf]] = 0 ∧
    (prepare (Axes.oneD [0] [0]) [[FVal.pinf]]).length ≠ countFinite [[FVal.pinf]] := by
  refine ⟨by decide, rfl, rfl, by decide⟩

lemma row_cloud_length (a b : List ℚ) (c : List FVal)
    (ha : a.length = c.length) (hb : b.length = c.length) :
    ((a.zip (b.zip c)).filterMap fun e =>
      if e.2.2.isnan then none else some (⟨e.1, e.2.1, e.2.2⟩ : Pt)).length
      = c.countP fun v => !v.isnan := by
  induction c generalizing a b with
  | nil =>
    rw [List.length_eq_zero.mp ha]
    simp
  | cons v cs ih =>
    match a with
    | [] => simp at ha
    | x :: xs =>
      match b with
      | [] => simp at hb
      | y :: ys =>
        have ha2 : xs.length = cs.length := by simpa using ha
        have hb2 : ys.length = cs.length := by simpa using hb
        simp only [List.zip_cons_cons, List.filterMap_cons, List.countP_cons]
        cases hv : v.isnan <;>
          simp [hv, ih xs ys ha2 hb2]

lemma cloudOfGrids_length (latG lonG : List (List ℚ)) (data : List (List FVal))
    (hl : latG.length = data.length) (hlo : lonG.length = data.length)
    (ha : ((latG.zip data).all fun p => p.1.length == p.2.length) = true)
    (hb : ((lonG.zip data).all fun p => p.1.length == p.2.length) = true) :
    (cloudOfGrids latG lonG data).length = countNonNaN data := by
  induction data generalizing latG lonG with
  | nil => simp [cloudOfGrids, countNonNaN]
  | cons d ds ih =>
    match latG with
    | [] => simp at hl
    | r :: rs =>
      match lonG with
      | [] => simp at hlo
      | s :: ss =>
        have hl2 : rs.length = ds.length := by simpa using hl
        have hlo2 : ss.length = ds.length := by simpa using hlo
        simp only [List.zip_cons_cons, List.all_cons, Bool.and_eq_true, beq_iff_eq] at ha hb
        simp only [cloudOfGrids, List.zip_cons_cons, List.flatMap_cons, List.length_append]
        have hrow := row_cloud_length r s d ha.1 hb.1
        have hrest := ih rs ss hl2 hlo2 (by simpa using ha.2) (by simpa using hb.2)
        simp only [cloudOfGrids] at hrest
        rw [hrow, hrest]
        simp [countNonNaN]

lemma cloudOfGrids_no_nan (latG lonG : List (List ℚ)) (data : List (List FVal)) :
    ∀ p ∈ cloudOfGrids latG lonG data, p.val.isnan = false := by
  intro p hp
  simp only [cloudOfGrids, List.mem_flatMap] at hp
  obtain ⟨r, _, hp⟩ := hp
  rw [List.mem_filterMap] at hp
  obtain ⟨e, _, heq⟩ := hp
  cases hn : e.2.2.isnan
  · rw [hn] at heq
    simp only [if_neg Bool.false_ne_true] at heq
    cases heq
    exact hn
  · rw [hn] at heq
    simp at heq

lemma countNonNaN_reverse (data : List (List FVal)) :
    countNonNaN data.reverse = countNonNaN data := by
  simp [countNonNaN, List.map_reverse, List.sum_reverse]

lemma countP_reverse_list (p : FVal → Bool) (r : List FVal) :
    r.reverse.countP p = r.countP p := by
  induction r with
  | nil => rfl
  | cons v vs ih => simp [List.countP_cons, List.countP_append, ih, Nat.add_comm]

lemma countNonNaN_flipAxis1 (data : List (List FVal)) :
    countNonNaN (flipAxis1 data) = countNonNaN data := by
  simp only [countNonNaN, flipAxis1, List.map_map]
  congr 1
  apply List.map_congr_left
  intro r _
  exact countP_reverse_list _ r

lemma rows_len_reverse {data : List (List FVal)} {n : ℕ}
    (h : ∀ r ∈ data, r.length = n) : ∀ r ∈ data.reverse, r.length = n :=
  fun r hr => h r (List.mem_reverse.mp hr)

lemma rows_len_flipAxis1 {data : List (List FVal)} {n : ℕ}
    (h : ∀ r ∈ data, r.length = n) : ∀ r ∈ flipAxis1 data, r.length = n := by
  intro r hr
  simp only [flipAxis1, List.mem_map] at hr
  obtain ⟨r0, h0, hre⟩ := hr
  rw [← hre]
  simp [h r0 h0]

lemma zip_all_len {rows : List (List ℚ)} {d : List (List FVal)} {n : ℕ}
    (h1 : ∀ r ∈ rows, r.length = n) (h2 : ∀ r ∈ d, r.length = n) :
    ((rows.zip d).all fun p => p.1.length == p.2.length) = true := by
  rw [List.all_eq_true]
  intro p hp
  obtain ⟨hpa, hpb⟩ := List.of_mem_zip hp
  simp [h1 _ hpa, h2 _ hpb]

lemma cloudOfGrids_mesh_length (lats1 lons1 : List ℚ) (d2 : List (List FVal))
    (hlen : d2.length = lats1.length) (hrow : ∀ r ∈ d2, r.length = lons1.length) :
    (cloudOfGrids (meshLat lons1 lats1) (meshLon lons1 lats1) d2).length
      = countNonNaN d2 := by
  apply cloudOfGrids_length
  · simp [meshLat, hlen]
  · simp [meshLon, hlen]
  · apply zip_all_len (n := lons1.length)
    · intro r hr
      simp only [meshLat, List.mem_map] at hr
      obtain ⟨la, _, hre⟩ := hr
      rw [← hre]
      simp
    · exact hrow
  · apply zip_all_len (n := lons1.length)
    · intro r hr
      simp only [meshLon, List.mem_map] at hr
      obtain ⟨la, _, hre⟩ := hr
      rw [← hre]
    · exact hrow

/-- C3 amended: data preparation drops exactly the samples whose value
is NaN (a value that is infinite, hence non-finite but not NaN, is
retained); the resulting point cloud contains only non-NaN values and
its length equals the count of non-NaN samples in the input; the output
is a pure function of the input, hence deterministic. -/
theorem prepare_drops_exactly_nan (ax : Axes) (data : List (List FVal))
    (h : shapeOk ax data = true) :
    (prepare ax data).length = countNonNaN data ∧
    ∀ p ∈ prepare ax data, p.val.isnan = false := by
  cases ax with
  | oneD lats lons =>
    simp only [shapeOk, Bool.and_eq_true, beq_iff_eq, List.all_eq_true] at h
    obtain ⟨hlen, hrow⟩ := h
    constructor
    · have hrow2 : ∀ r ∈ data, r.length = lons.length := by
        intro r hr
        simpa using hrow r hr
      cases hlat : isDesc lats <;> cases hlon : isDesc lons <;>
        simp only [prepare, hlat, hlon, Bool.false_eq_true, eq_self_iff_true,
          if_true, if_false]
      · exact cloudOfGrids_mesh_length lats lons data hlen hrow2
      · refine (cloudOfGrids_mesh_length lats lons.reverse (flipAxis1 data)
          ?_ ?_).trans ?_
        · simp [flipAxis1, hlen]
        · intro r hr
          simpa using rows_len_flipAxis1 hrow2 r hr
        · exact countNonNaN_flipAxis1 data
      · refine (cloudOfGrids_mesh_length lats.reverse lons data.reverse
          ?_ ?_).trans ?_
        · simp [hlen]
        · exact rows_len_reverse hrow2
        · exact countNonNaN_reverse data
      · refine (cloudOfGrids_mesh_length lats.reverse lons.reverse
          (flipAxis1 data.reverse) ?_ ?_).trans ?_
        · simp [flipAxis1, hlen]
        · intro r hr
          simpa using rows_len_flipAxis1 (rows_len_reverse hrow2) r hr
        · rw [countNonNaN_flipAxis1, countNonNaN_reverse]
    · intro p hp
      exact cloudOfGrids_no_nan _ _ _ p hp
  | twoD latG lonG =>
    simp only [shapeOk, Bool.and_eq_true, beq_iff_eq] at h
    exact ⟨cloudOfGrids_length latG lonG data h.1.1.1 h.1.1.2 h.1.2 h.2,
      fun p hp => cloudOfGrids_no_nan _ _ _ p hp⟩

/-- C3 amended witness: a grid with one NaN, one infinity and two
finite values keeps exactly the three non-NaN samples. -/
theorem prepare_drops_exactly_nan_witness :
    shapeOk (Axes.oneD [0, 10] [0, 10]) [[.fin 1, .nan], [.pinf, .fin 2]] = true ∧
    ((prepare (Axes.oneD [0, 10] [0, 10]) [[.fin 1, .nan], [.pinf, .fin 2]]).length
       = countNonNaN [[.fin 1, .nan], [.pinf, .fin 2]] ∧
     ∀ p ∈ prepare (Axes.oneD [0, 10] [0, 10]) [[.fin 1, .nan], [.pinf, .fin 2]],
       p.val.isnan = false) :=
  ⟨by decide,
    prepare_drops_exactly_nan (Axes.oneD [0, 10] [0, 10])
      [[.fin 1, .nan], [.pinf, .fin 2]] (by decide)⟩

/-! Claim C7: the large-triangle mask. -/

/-- C7: in the triangulation step of tile rendering, every triangle
area is computed as half the absolute cross product of two edge
vectors, and the attached mask excludes exactly the triangles whose
area strictly exceeds 3 times the median area over all triangles. -/
theorem area_mask_exact (t : Triang) (i : ℕ) (hi : i < t.triangles.length) :
    ((applyAreaMask t).mask.getD i false = true ↔
      3 * npMedian (triAreas t) < triArea t (t.triangles.getD i (0, 0, 0))) ∧
    triArea t (t.triangles.getD i (0, 0, 0)) =
      1 / 2 * |cross
        (t.xs.getD (t.triangles.getD i (0, 0, 0)).2.1 0 -
          t.xs.getD (t.triangles.getD i (0, 0, 0)).1 0)
        (t.ys.getD (t.triangles.getD i (0, 0, 0)).2.1 0 -
          t.ys.getD (t.triangles.getD i (0, 0, 0)).1 0)
        (t.xs.getD (t.triangles.getD i (0, 0, 0)).2.2 0 -
          t.xs.getD (t.triangles.getD i (0, 0, 0)).1 0)
        (t.ys.getD (t.triangles.getD i (0, 0, 0)).2.2 0 -
          t.ys.getD (t.triangles.getD i (0, 0, 0)).1 0)| := by
  constructor
  · have hlen : i < (triAreas t).length := by simpa [triAreas] using hi
    have hmask : (applyAreaMask t).mask =
        (triAreas t).map fun a => decide (3 * npMedian (triAreas t) < a) := rfl
    rw [hmask, List.getD_eq_getElem?_getD, List.getElem?_map,
      List.getElem?_eq_getElem hlen]
    simp only [Option.map_some', Option.getD_some, decide_eq_true_eq]
    have harea : (triAreas t)[i] = triArea t (t.triangles.getD i (0, 0, 0)) := by
      simp only [triAreas, List.getElem_map, List.getD_eq_getElem t.triangles _ hi]
    rw [harea]
  · simp only [triArea, cross]

/-- C7 witness: in the demo triangulation (two small triangles, one
large) the third triangle exceeds 3 times the median area and is the
one masked. -/
theorem area_mask_exact_witness :
    2 < demoTriang.triangles.length ∧
    (((applyAreaMask demoTriang).mask.getD 2 false = true ↔
      3 * npMedian (triAreas demoTriang) <
        triArea demoTriang (demoTriang.triangles.getD 2 (0, 0, 0))) ∧
    triArea demoTriang (demoTriang.triangles.getD 2 (0, 0, 0)) =
      1 / 2 * |cross
        (demoTriang.xs.getD (demoTriang.triangles.getD 2 (0, 0, 0)).2.1 0 -
          demoTriang.xs.getD (demoTriang.triangles.getD 2 (0, 0, 0)).1 0)
        (demoTriang.ys.getD (demoTriang.triangles.getD 2 (0, 0, 0)).2.1 0 -
          demoTriang.ys.getD (demoTriang.triangles.getD 2 (0, 0, 0)).1 0)
        (demoTriang.xs.getD (demoTriang.triangles.getD 2 (0, 0, 0)).2.2 0 -
          demoTriang.xs.getD (demoTriang.triangles.getD 2 (0, 0, 0)).1 0)
        (demoTriang.ys.getD (demoTriang.triangles.getD 2 (0, 0, 0)).2.2 0 -
          demoTriang.ys.getD (demoTriang.triangles.getD 2 (0, 0, 0)).1 0)|) :=
  ⟨by decide, area_mask_exact demoTriang 2 (by decide)⟩

/-! Claim C8: failure isolation in the result-collection loop. -/

/-- C8: the result-collection loop of a zoom-level batch processes
every completed job, whatever the completion order: the completion
counter reaches the number of submitted jobs even when some jobs
raised, and every exception is caught and logged together with the
coordinates of its tile; no failure aborts the loop or suppresses a
sibling result. -/
theorem scheduler_failure_isolation (z : ℕ)
    (results : List ((ℕ × ℕ) × Except String Unit)) :
    (collectResults z results).1 = results.length ∧
    ∀ x y e, ((x, y), Except.error e) ∈ results →
      (z, x, y, e) ∈ (collectResults z results).2 := by
  induction results with
  | nil => exact ⟨rfl, by simp⟩
  | cons hd tl ih =>
    obtain ⟨⟨x0, y0⟩, r⟩ := hd
    constructor
    · cases r <;> simp [collectResults, ih.1]
    · intro x y e hmem
      rcases List.mem_cons.mp hmem with heq | htl
      · cases r with
        | error e0 =>
          have hx : (x = x0 ∧ y = y0) ∧ e = e0 := by
            simpa using heq
          obtain ⟨⟨hx1, hx2⟩, hx3⟩ := hx
          subst hx1; subst hx2; subst hx3
          simp [collectResults]
        | ok u => simp at heq
      · cases r with
        | error e0 =>
          have := ih.2 x y e htl
          simp only [collectResults]
          exact List.mem_cons_of_mem _ this
        | ok u =>
          have := ih.2 x y e htl
          simpa [collectResults] using this

/-- C8 witness: a three-job batch whose middle job raised: the counter
reaches 3 and the failure is logged with its tile coordinates. -/
theorem scheduler_failure_isolation_witness :
    ((1, 2), Except.error "boom") ∈ demoResults ∧
    (collectResults 5 demoResults).1 = demoResults.length ∧
    (5, 1, 2, "boom") ∈ (collectResults 5 demoResults).2 :=
  ⟨by simp [demoResults], (scheduler_failure_isolation 5 demoResults).1,
    (scheduler_failure_isolation 5 demoResults).2 1 2 "boom" (by simp [demoResults])⟩

/-! Claim C10: generate_tiles does not mutate the arrays of its
caller. -/

/-- C10: threading the caller store through every numpy operation the
data-preparation code performs, the store after the call equals the
store before it (no operation writes into scene_data, scene_lats or
scene_lons), and the resulting point cloud is a pure function of the
original input values. -/
theorem generate_tiles_prep_no_mutation (st : Store) :
    (generateTilesPrep st).1 = st ∧
    (generateTilesPrep st).2 = prepare st.axes st.sceneData := by
  obtain ⟨data, ax⟩ := st
  cases ax with
  | oneD lats lons =>
    cases h1 : isDesc lats <;> cases h2 : isDesc lons <;>
      simp [generateTilesPrep, prepare, npReverseSlice, npCopyAxis, npCopyGrid,
        npFlipAxis0, npFlipAxis1, npMeshgrid, npBoolMaskFilter, h1, h2]
  | twoD latG lonG =>
    simp [generateTilesPrep, prepare, npCopyGrid, npBoolMaskFilter]

/-! Claim C2: one file per enumerated tile. -/

lemma countP_writes_map {CS : Type} (o : Oracle CS) (boundsOf : ℕ → ℕ → ℕ → Bounds)
    (pc : List Pt) (cs : ColorSpec) (z w x y : ℕ) (ts : List (ℕ × ℕ)) :
    ((ts.map fun p => runTileJob o boundsOf pc cs w p.1 p.2).countP (isWriteAt z x y))
      = if z = w then ts.countP (fun p => x == p.1 && y == p.2) else 0 := by
  induction ts with
  | nil => simp
  | cons p ps ih =>
    simp only [List.map_cons, List.countP_cons, ih]
    by_cases hz : z = w
    · subst hz
      simp only [isWriteAt, runTileJob, beq_self_eq_true, Bool.true_and,
        eq_self_iff_true, if_true]
    · simp [isWriteAt, runTileJob, hz]

lemma countP_mkdirX_zero (z x y w : ℕ) (xs : List ℕ) :
    ((xs.map (FsOp.mkdirX w)).countP (isWriteAt z x y)) = 0 := by
  induction xs with
  | nil => rfl
  | cons a as ih => simp [List.countP_cons, isWriteAt, ih]

lemma writeCount_zoomTrace {CS : Type} (o : Oracle CS)
    (boundsOf : ℕ → ℕ → ℕ → Bounds) (pc : List Pt) (cs : ColorSpec)
    (z w x y : ℕ) (ts : List (ℕ × ℕ)) :
    writeCount (zoomTrace o boundsOf pc cs w ts) z x y
      = if z = w then ts.countP (fun p => x == p.1 && y == p.2) else 0 := by
  unfold writeCount zoomTrace
  rw [List.countP_cons, List.countP_append, countP_mkdirX_zero,
    countP_writes_map]
  simp [isWriteAt]

lemma countP_pair_nodup (ts : List (ℕ × ℕ)) (x y : ℕ) (h : ts.Nodup) :
    ts.countP (fun p => x == p.1 && y == p.2) = if (x, y) ∈ ts then 1 else 0 := by
  induction ts with
  | nil => simp
  | cons p ps ih =>
    rw [List.nodup_cons] at h
    rw [List.countP_cons]
    by_cases hp : p = (x, y)
    · subst hp
      simp [ih h.2, h.1]
    · have hcond : ¬(x = p.1 ∧ y = p.2) := by
        intro hc
        exact hp (Prod.ext hc.1.symm hc.2.symm)
      have hne : ¬((x, y) = p) := fun hc => hp hc.symm
      simp only [List.mem_cons]
      rw [ih h.2]
      by_cases hmem : (x, y) ∈ ps <;> simp [hmem, hne, hcond]

lemma writeCount_flatMap {CS : Type} (o : Oracle CS)
    (boundsOf : ℕ → ℕ → ℕ → Bounds) (tilesOf : ℕ → List (ℕ × ℕ))
    (pc : List Pt) (cs : ColorSpec) (zooms : List ℕ)
    (ht : ∀ w, (tilesOf w).Nodup) (z x y : ℕ) : zooms.Nodup →
    ((zooms.flatMap fun w => zoomTrace o boundsOf pc cs w (tilesOf w)).countP
        (isWriteAt z x y))
      = if z ∈ zooms ∧ (x, y) ∈ tilesOf z then 1 else 0 := by
  induction zooms with
  | nil => intro _; simp
  | cons z0 zs ih =>
    intro hz
    rw [List.nodup_cons] at hz
    rw [List.flatMap_cons, List.countP_append]
    have hseg := writeCount_zoomTrace o boundsOf pc cs z x y (tilesOf z0) (w := z0)
    unfold writeCount at hseg
    rw [hseg, ih hz.2]
    by_cases hzz : z = z0
    · subst hzz
      rw [if_pos rfl, countP_pair_nodup _ _ _ (ht z)]
      have hnot : ¬(z ∈ zs ∧ (x, y) ∈ tilesOf z) := fun hc => hz.1 hc.1
      rw [if_neg hnot]
      by_cases hmem : (x, y) ∈ tilesOf z <;>
        simp [hmem, List.mem_cons]
    · rw [if_neg hzz]
      have hiff : (z ∈ z0 :: zs ∧ (x, y) ∈ tilesOf z) ↔
          (z ∈ zs ∧ (x, y) ∈ tilesOf z) := by
        simp [List.mem_cons, hzz]
      by_cases hc : z ∈ zs ∧ (x, y) ∈ tilesOf z
      · rw [if_pos hc, if_pos (hiff.mpr hc)]
      · rw [if_neg hc, if_neg (fun hh => hc (hiff.mp hh))]

/-- C2: generate_tiles performs exactly one tile-file write per
enumerated tile of each requested zoom level, and no write at the path
of any tile not enumerated for a requested zoom: the number of writes
at path z/x/y.png is 1 when z is a requested zoom and (x, y) is
enumerated at z, and 0 otherwise (zoom levels are requested once and an
enumeration lists each tile once). -/
theorem generate_tiles_write_count {CS : Type} (o : Oracle CS)
    (boundsOf : ℕ → ℕ → ℕ → Bounds) (tilesOf : ℕ → List (ℕ × ℕ))
    (pc : List Pt) (cs : ColorSpec) (zooms : List ℕ)
    (hz : zooms.Nodup) (ht : ∀ w, (tilesOf w).Nodup) (z x y : ℕ) :
    writeCount (generateTilesTrace o boundsOf tilesOf pc cs zooms) z x y
      = if z ∈ zooms ∧ (x, y) ∈ tilesOf z then 1 else 0 := by
  unfold generateTilesTrace writeCount
  rw [List.countP_cons]
  have hroot : isWriteAt z x y FsOp.mkdirRoot = false := rfl
  rw [hroot]
  simpa using writeCount_flatMap o boundsOf tilesOf pc cs zooms ht z x y hz

/-- C2 witness: one zoom level with one enumerated tile produces
exactly one write at that tile and none at a tile outside the
enumeration. -/
theorem generate_tiles_write_count_witness :
    ([1] : List ℕ).Nodup ∧ (∀ w, (demoTilesOf w).Nodup) ∧
    writeCount (generateTilesTrace noopOracle constBoundsOf demoTilesOf []
        demoCS [1]) 1 0 0
      = if 1 ∈ [1] ∧ (0, 0) ∈ demoTilesOf 1 then 1 else 0 :=
  ⟨by decide, fun w => by unfold demoTilesOf; decide,
    generate_tiles_write_count noopOracle constBoundsOf demoTilesOf [] demoCS [1]
      (by decide) (fun w => by unfold demoTilesOf; decide) 1 0 0⟩

/-! Claim C9: directories are created before any write of their zoom
level. -/

lemma mem_of_getElem?_some {α : Type} {l : List α} {n : ℕ} {a : α}
    (h : l[n]? = some a) : a ∈ l := by
  obtain ⟨hlt, heq⟩ := List.getElem?_eq_some.mp h
  rw [← heq]
  exact l.getElem_mem hlt

lemma flatMap_dirs_before_writes {CS : Type} (o : Oracle CS)
    (boundsOf : ℕ → ℕ → ℕ → Bounds) (tilesOf : ℕ → List (ℕ × ℕ))
    (pc : List Pt) (cs : ColorSpec) (zooms : List ℕ)
    (i z x y : ℕ) (img : Image)
    (h : (zooms.flatMap fun w => zoomTrace o boundsOf pc cs w (tilesOf w))[i]?
          = some (FsOp.writeTile z x y img)) :
    (∃ j, j < i ∧
      (zooms.flatMap fun w => zoomTrace o boundsOf pc cs w (tilesOf w))[j]?
        = some (FsOp.mkdirZoom z)) ∧
    (∀ x2 ∈ xDirs (tilesOf z), ∃ k, k < i ∧
      (zooms.flatMap fun w => zoomTrace o boundsOf pc cs w (tilesOf w))[k]?
        = some (FsOp.mkdirX z x2)) := by
  induction zooms generalizing i with
  | nil => simp at h
  | cons z0 zs ih =>
    rw [List.flatMap_cons] at h ⊢
    by_cases hi : i < (zoomTrace o boundsOf pc cs z0 (tilesOf z0)).length
    · have hin : (zoomTrace o boundsOf pc cs z0 (tilesOf z0))[i]?
          = some (FsOp.writeTile z x y img) := by
        rw [List.getElem?_append, if_pos hi] at h
        exact h
      match i with
      | 0 =>
        rw [zoomTrace, List.getElem?_cons_zero] at hin
        exact absurd (Option.some.inj hin) (by intro hc; cases hc)
      | Nat.succ n =>
        rw [zoomTrace, List.getElem?_cons_succ] at hin
        by_cases hn : n < ((xDirs (tilesOf z0)).map (FsOp.mkdirX z0)).length
        · rw [List.getElem?_append, if_pos hn] at hin
          have hmem := mem_of_getElem?_some hin
          rw [List.mem_map] at hmem
          obtain ⟨x2, _, heq⟩ := hmem
          cases heq
        · push_neg at hn
          rw [List.getElem?_append_right hn] at hin
          have hmemW := mem_of_getElem?_some hin
          rw [List.mem_map] at hmemW
          obtain ⟨p, hp, heq⟩ := hmemW
          unfold runTileJob at heq
          have hzz : z0 = z ∧ p.1 = x ∧ p.2 = y := by
            have h1 := congrArg (fun e => match e with
              | FsOp.writeTile a _ _ _ => a
              | _ => 0) heq
            have h2 := congrArg (fun e => match e with
              | FsOp.writeTile _ b _ _ => b
              | _ => 0) heq
            have h3 := congrArg (fun e => match e with
              | FsOp.writeTile _ _ c _ => c
              | _ => 0) heq
            exact ⟨h1, h2, h3⟩
          obtain ⟨hz0, hpx, hpy⟩ := hzz
          subst hz0
          constructor
          · refine ⟨0, Nat.succ_pos n, ?_⟩
            rw [List.getElem?_append, if_pos (by simp [zoomTrace])]
            rw [zoomTrace, List.getElem?_cons_zero]
          · intro x2 hx2
            have hmx : FsOp.mkdirX z0 x2 ∈
                ((xDirs (tilesOf z0)).map (FsOp.mkdirX z0)) :=
              List.mem_map_of_mem _ hx2
            obtain ⟨k, hkeq⟩ := List.mem_iff_getElem?.mp hmx
            have hklen : k < ((xDirs (tilesOf z0)).map (FsOp.mkdirX z0)).length :=
              (List.getElem?_eq_some.mp hkeq).1
            refine ⟨k + 1, by omega, ?_⟩
            have hkseg : k + 1 < (zoomTrace o boundsOf pc cs z0 (tilesOf z0)).length := by
              simp only [zoomTrace, List.length_cons, List.length_append]
              omega
            rw [List.getElem?_append, if_pos hkseg]
            rw [zoomTrace, List.getElem?_cons_succ, List.getElem?_append, if_pos hklen]
            exact hkeq
    · push_neg at hi
      rw [List.getElem?_append_right hi] at h
      obtain ⟨⟨j, hj, hjeq⟩, hAll⟩ := ih (i - (zoomTrace o boundsOf pc cs z0 (tilesOf z0)).length) h
      constructor
      · refine ⟨(zoomTrace o boundsOf pc cs z0 (tilesOf z0)).length + j, by omega, ?_⟩
        rw [List.getElem?_append_right (by omega)]
        simpa [Nat.add_sub_cancel_left] using hjeq
      · intro x2 hx2
        obtain ⟨k, hk, hkeq⟩ := hAll x2 hx2
        refine ⟨(zoomTrace o boundsOf pc cs z0 (tilesOf z0)).length + k, by omega, ?_⟩
        rw [List.getElem?_append_right (by omega)]
        simpa [Nat.add_sub_cancel_left] using hkeq

/-- C9: in the event trace of generate_tiles, whenever position i holds
the write of tile z/x/y, the creation of the zoom directory z and the
creation of every x subdirectory of the tiles enumerated at zoom z all
occur at strictly earlier positions, so no render job is submitted (and
hence no tile file written) before its directories exist. -/
theorem dirs_created_before_writes {CS : Type} (o : Oracle CS)
    (boundsOf : ℕ → ℕ → ℕ → Bounds) (tilesOf : ℕ → List (ℕ × ℕ))
    (pc : List Pt) (cs : ColorSpec) (zooms : List ℕ)
    (i z x y : ℕ) (img : Image)
    (h : (generateTilesTrace o boundsOf tilesOf pc cs zooms)[i]?
          = some (FsOp.writeTile z x y img)) :
    (∃ j, j < i ∧ (generateTilesTrace o boundsOf tilesOf pc cs zooms)[j]?
        = some (FsOp.mkdirZoom z)) ∧
    (∀ x2 ∈ xDirs (tilesOf z), ∃ k, k < i ∧
      (generateTilesTrace o boundsOf tilesOf pc cs zooms)[k]?
        = some (FsOp.mkdirX z x2)) := by
  unfold generateTilesTrace at h ⊢
  match i with
  | 0 =>
    rw [List.getElem?_cons_zero] at h
    exact absurd (Option.some.inj h) (by intro hc; cases hc)
  | Nat.succ n =>
    rw [List.getElem?_cons_succ] at h
    obtain ⟨⟨j, hj, hjeq⟩, hAll⟩ :=
      flatMap_dirs_before_writes o boundsOf tilesOf pc cs zooms n z x y img h
    constructor
    · exact ⟨j + 1, by omega, by rw [List.getElem?_cons_succ]; exact hjeq⟩
    · intro x2 hx2
      obtain ⟨k, hk, hkeq⟩ := hAll x2 hx2
      exact ⟨k + 1, by omega, by rw [List.getElem?_cons_succ]; exact hkeq⟩

/-- C9 witness: in the one-zoom one-tile demo trace the write sits at
position 3, after the root, zoom and x directory creations. -/
theorem dirs_created_before_writes_witness :
    (generateTilesTrace noopOracle constBoundsOf demoTilesOf [] demoCS [3])[3]?
      = some (FsOp.writeTile 3 0 0
          (renderSingleTile noopOracle (constBoundsOf 3 0 0) [] demoCS)) ∧
    ((∃ j, j < 3 ∧
      (generateTilesTrace noopOracle constBoundsOf demoTilesOf [] demoCS [3])[j]?
        = some (FsOp.mkdirZoom 3)) ∧
    (∀ x2 ∈ xDirs (demoTilesOf 3), ∃ k, k < 3 ∧
      (generateTilesTrace noopOracle constBoundsOf demoTilesOf [] demoCS [3])[k]?
        = some (FsOp.mkdirX 3 x2))) :=
  ⟨rfl,
    dirs_created_before_writes noopOracle constBoundsOf demoTilesOf [] demoCS [3]
      3 3 0 0 (renderSingleTile noopOracle (constBoundsOf 3 0 0) [] demoCS) rfl⟩

end Seaview

